import Mathlib

/-!
Verification development for the mirror-sync core (src/src/sync.rs).

The Rust code is shallowly embedded: pure decision procedures become Lean
functions over snapshots of the data the code inspects, and the effectful
parts (file reads, directory scans, the worker termination protocol) are
embedded as functions over explicit environment records, or as a small-step
transition relation, that mirror the source control flow line by line.
Machine integers (u8, u32, u64) are modelled as Nat: none of the embedded
code paths can overflow them (sizes are only compared and minimised).
File contents are lists of bytes (Nat); wall-clock instants are Nat.
-/

namespace MirrorSync

/-! ## Log model (src/src/sync.rs, SyncLogLevel / SyncLogEntry / log).

The Instant timestamp carried by SyncLogEntry is dropped: no embedded claim
inspects it. -/

inductive SyncLogLevel
  | Info
  | Debug
  | Error
deriving DecidableEq

structure SyncLogEntry where
  level : SyncLogLevel
  message : String
deriving DecidableEq

/-! ## Metadata and configuration (src/src/sync.rs, SyncBuilder and std Metadata).

A std::fs::Metadata snapshot is embedded as the triple of facts the sync code
reads from it: the file kind (is_dir / is_file / other), the byte length, and
the modified time.  `modified = none` embeds a `metadata.modified()` call that
returns Err. -/

inductive FileKind
  | file
  | dir
  | other
deriving DecidableEq

structure Metadata where
  kind : FileKind
  len : Nat
  modified : Option Nat
deriving DecidableEq

/-- SyncBuilder (src/src/sync.rs lines 16-29).  `parallel_copies` is a u8,
embedded as Fin 256.  The directory pairs and the filter closure are carried
separately by the functions that use them. -/
structure SyncBuilder where
  parallel_copies : Fin 256
  copy_contents_if_date_mismatched : Bool
  copy_contents_if_size_mismatched : Bool
  copy_contents_if_start_end_mismatched_size : Nat
  copy_contents_if_contents_mismatched : Bool
  copy_created_date : Bool
  copy_modified_date : Bool
deriving DecidableEq

/-- SyncBuilder::new (src/src/sync.rs lines 32-44). -/
def SyncBuilder.new : SyncBuilder :=
  { parallel_copies := 1
    copy_contents_if_date_mismatched := false
    copy_contents_if_size_mismatched := true
    copy_contents_if_start_end_mismatched_size := 8 * 1024
    copy_contents_if_contents_mismatched := false
    copy_created_date := true
    copy_modified_date := true }

/-- The u8 setter SyncBuilder::parallel_copies (src/src/sync.rs lines 46-49).
Renamed with a prefix because the Lean field projection takes the source
name.  It accepts any u8 value, including 0. -/
def SyncBuilder.with_parallel_copies (b : SyncBuilder) (value : Fin 256) : SyncBuilder :=
  { b with parallel_copies := value }

/-- CopyReason (src/src/sync.rs lines 609-616). -/
inductive CopyReason
  | Missing
  | DateMismatched
  | SizeMismatched
  | StartEndMismatched
  | None
deriving DecidableEq

/-- CopyFileIfNeededData (src/src/sync.rs lines 596-601); paths are strings. -/
structure CopyFileIfNeededData where
  src : String
  dest : String
  src_meta : Metadata
  dest_meta : Option Metadata
deriving DecidableEq

/-- Rust's `result.unwrap_or(false)` on a Result of Bool. -/
def exceptGetD (e : Except Unit Bool) (d : Bool) : Bool :=
  match e with
  | .ok b => b
  | .error _ => d

/-! ## compare_start_end_equal (src/src/sync.rs lines 437-517).

The two File::open results are embedded as `Option (List Nat)`: the file's
byte contents when the open succeeds, none when it fails.  `read_exact` into
a buffer of k bytes from position p succeeds iff p + k does not pass the end
of the file, and `seek(SeekFrom::End(-k))` succeeds iff k is at most the file
length; with those, in this function the first read fails exactly when the
computed compare size exceeds the file length, and the later seek and read
never fail once the first read succeeded — precisely the real failure points.
The returned pair is (function result, log entries pushed). -/
def compare_start_end_equal (opts : SyncBuilder) (data : CopyFileIfNeededData)
    (srcOpen destOpen : Option (List Nat)) : Except Unit Bool × List SyncLogEntry :=
  match srcOpen with
  | none => (Except.error (), [⟨SyncLogLevel.Error, "Failed to open " ++ data.src⟩])
  | some srcBytes =>
    match destOpen with
    | none => (Except.error (), [])
    | some destBytes =>
      let compare_size0 := min opts.copy_contents_if_start_end_mismatched_size data.src_meta.len
      let compare_size :=
        match data.dest_meta with
        | some dest_meta => min compare_size0 dest_meta.len
        | none => compare_size0
      if compare_size ≤ srcBytes.length then
        if compare_size ≤ destBytes.length then
          let src_buffer := srcBytes.take compare_size
          let dest_buffer := destBytes.take compare_size
          if src_buffer = dest_buffer then
            let src_buffer2 := (srcBytes.drop (srcBytes.length - compare_size)).take compare_size
            let dest_buffer2 := (destBytes.drop (destBytes.length - compare_size)).take compare_size
            if src_buffer2 = dest_buffer2 then
              (Except.ok true, [])
            else
              (Except.ok false, [])
          else
            (Except.ok false, [])
        else
          (Except.error (), [])
      else
        (Except.error (), [⟨SyncLogLevel.Error, "Failed to read " ++ data.src⟩])

/-! ## should_copy_file (src/src/sync.rs lines 519-558).

Note the source order: `data.src_meta.modified()` is read first and a failure
returns DateMismatched before `dest_meta` absence is even examined. -/
def should_copy_file (opts : SyncBuilder) (data : CopyFileIfNeededData)
    (srcOpen destOpen : Option (List Nat)) : CopyReason × List SyncLogEntry :=
  match data.src_meta.modified with
  | none =>
    (CopyReason.DateMismatched,
      [⟨SyncLogLevel.Error, "Failed to get modified date of " ++ data.src⟩])
  | some src_modified =>
    match data.dest_meta with
    | none => (CopyReason.Missing, [])
    | some dest_meta =>
      match dest_meta.modified with
      | none =>
        (CopyReason.DateMismatched,
          [⟨SyncLogLevel.Error, "Failed to get modified date of " ++ data.dest⟩])
      | some dest_modified =>
        if opts.copy_contents_if_date_mismatched ∧ src_modified ≠ dest_modified then
          (CopyReason.DateMismatched, [])
        else if opts.copy_contents_if_size_mismatched ∧ data.src_meta.len ≠ dest_meta.len then
          (CopyReason.SizeMismatched, [])
        else if opts.copy_contents_if_start_end_mismatched_size > 0 then
          let cmp := compare_start_end_equal opts data srcOpen destOpen
          if exceptGetD cmp.fst false = false then
            (CopyReason.StartEndMismatched, cmp.snd)
          else
            (CopyReason.None, cmp.snd)
        else
          (CopyReason.None, [])

/-! ## copy_file_if_needed (src/src/sync.rs lines 560-592). -/

/-- The effect of one CopyFileIfNeeded op on the destination file. -/
inductive CopyEffect
  | noWrite
  | wrote (bytes : List Nat)
  | writeAborted (written : List Nat)
deriving DecidableEq

/-- A call into the platform timestamp stamper (src/src/windows_file_times.rs,
set_created / set_modified).  The sync core contains no call to either
function, so the copier's trace of stamper calls is always empty; the field
exists so that the absence is a provable statement. -/
inductive StamperCall
  | created (path : String) (time : Nat)
  | modified (path : String) (time : Nat)
deriving DecidableEq

structure CopyOutcome where
  reason : CopyReason
  logs : List SyncLogEntry
  effect : CopyEffect
  stamperCalls : List StamperCall
deriving DecidableEq

/-- copy_file_if_needed (src/src/sync.rs lines 560-592).  `srcOpen` and
`destOpen` are the contents seen by the decider's head/tail comparison (and
`srcOpen` is also the source the copy would stream); `destCreateOk` embeds
the File::create result on the destination, `copyOk` the io::copy result,
`writtenOnFail` whatever partial bytes the OS wrote when io::copy failed. -/
def copy_file_if_needed (opts : SyncBuilder) (data : CopyFileIfNeededData)
    (srcOpen destOpen : Option (List Nat)) (destCreateOk : Bool) (copyOk : Bool)
    (writtenOnFail : List Nat) : CopyOutcome :=
  let sc := should_copy_file opts data srcOpen destOpen
  if sc.fst = CopyReason.None then
    { reason := sc.fst, logs := sc.snd, effect := CopyEffect.noWrite, stamperCalls := [] }
  else
    match srcOpen with
    | none =>
      { reason := sc.fst
        logs := sc.snd ++ [⟨SyncLogLevel.Error, "Failed to open " ++ data.src⟩]
        effect := CopyEffect.noWrite, stamperCalls := [] }
    | some srcBytes =>
      if destCreateOk = false then
        { reason := sc.fst
          logs := sc.snd ++ [⟨SyncLogLevel.Error, "Failed to open " ++ data.dest⟩]
          effect := CopyEffect.noWrite, stamperCalls := [] }
      else if copyOk then
        { reason := sc.fst
          logs := sc.snd ++ [⟨SyncLogLevel.Info, "Starting to copy " ++ data.src⟩]
          effect := CopyEffect.wrote srcBytes, stamperCalls := [] }
      else
        { reason := sc.fst
          logs := sc.snd ++ [⟨SyncLogLevel.Info, "Starting to copy " ++ data.src⟩,
                             ⟨SyncLogLevel.Error, "Failed to copy " ++ data.src⟩]
          effect := CopyEffect.writeAborted writtenOnFail, stamperCalls := [] }

/-! ## sync_dir (src/src/sync.rs lines 271-408).

One scanner invocation is embedded as a function of an environment record
holding the outcomes of every filesystem call the scan makes, in source
order: the symlink_metadata stat of the destination directory, the (ignored)
remove_file / create_dir results, the destination listing, and the source
listing.  The result collects the log entries pushed, the direct filesystem
actions of step 1, the dir-tasks and op-tasks enqueued — and whether the
scan panicked: `fs::read_dir(src_dir)` is `unwrap()`ed at line 313, so a
failed source listing aborts the worker thread instead of being logged. -/

/-- Result of `fs::symlink_metadata(dest_dir)` (src/src/sync.rs line 273). -/
inductive StatResult
  | found (kind : FileKind)
  | notFound
  | otherErr (msg : String)
deriving DecidableEq

/-- An io::Error from DirEntry::metadata, distinguishing ErrorKind::NotFound. -/
structure IoErr where
  notFound : Bool
  msg : String
deriving DecidableEq

/-- One entry of the destination listing: its full path and its (memoised)
DirEntry::metadata result. -/
structure DestEntry where
  path : String
  meta : Except IoErr Metadata

/-- One entry of the source listing: its name and its DirEntry::metadata
result (an error message when the stat fails). -/
structure SrcEntry where
  name : String
  meta : Except String Metadata

structure SyncDirEnv where
  destStat : StatResult
  removeFileResult : Except String Unit
  createDirResult : Except String Unit
  destListing : Except String (List (Except String DestEntry))
  srcListing : Except String (List (Except String SrcEntry))
  filter : String → Bool

/-- A direct filesystem action taken by the scanner itself (step 1). -/
inductive FsAction
  | removeFile (path : String)
  | createDir (path : String)
deriving DecidableEq

/-- IoOperation (src/src/sync.rs lines 603-607). -/
inductive IoOperation
  | DeleteDirAll (path : String)
  | DeleteFile (path : String)
  | CopyFileIfNeeded (data : CopyFileIfNeededData)
deriving DecidableEq

structure SyncDirResult where
  panicked : Bool
  logs : List SyncLogEntry
  actions : List FsAction
  dirTasks : List (String × String)
  ops : List IoOperation

def pathJoin (dir name : String) : String := dir ++ "/" ++ name

/-- Step 1 of sync_dir (src/src/sync.rs lines 272-286): ensure the
destination is a directory.  The remove_file and create_dir Results are
discarded by the source (`fs::remove_file(&dest_dir);` with no binding), and
a stat error other than NotFound does nothing — none of these failures is
logged. -/
def ensureDestDirActions (env : SyncDirEnv) (dest_dir : String) : List FsAction :=
  match env.destStat with
  | .found kind =>
    if kind = FileKind.dir then []
    else [FsAction.removeFile dest_dir, FsAction.createDir dest_dir]
  | .notFound => [FsAction.createDir dest_dir]
  | .otherErr _ => []

/-- Accumulator for the source walk (src/src/sync.rs lines 314-389):
log entries, enqueued tasks, and the not-yet-matched destination entries. -/
structure WalkState where
  logs : List SyncLogEntry
  dirTasks : List (String × String)
  ops : List IoOperation
  remaining : List DestEntry

/-- One iteration of the source walk (src/src/sync.rs lines 314-389). -/
def walkStep (filter : String → Bool) (src_dir dest_dir : String)
    (st : WalkState) (entry : Except String SrcEntry) : WalkState :=
  match entry with
  | .error msg =>
    { st with logs := st.logs ++
        [⟨SyncLogLevel.Error,
          "Failed to read the name of a file in " ++ src_dir ++ ": " ++ msg⟩] }
  | .ok e =>
    let src_path := pathJoin src_dir e.name
    if filter src_path = false then
      { st with logs := st.logs ++ [⟨SyncLogLevel.Info, "Skipping file " ++ src_path⟩] }
    else
      let dest_path := pathJoin dest_dir e.name
      match e.meta with
      | .error msg =>
        { st with logs := st.logs ++
            [⟨SyncLogLevel.Error,
              "Failed to read information about " ++ src_path ++ ": " ++ msg⟩] }
      | .ok src_meta =>
        let dest_entry := st.remaining.find? (fun d => d.path = dest_path)
        let st := { st with remaining := st.remaining.filter (fun d => d.path ≠ dest_path) }
        if src_meta.kind = FileKind.dir then
          { st with dirTasks := st.dirTasks ++ [(src_path, dest_path)] }
        else if src_meta.kind = FileKind.file then
          match dest_entry with
          | none =>
            { st with ops := st.ops ++
                [IoOperation.CopyFileIfNeeded ⟨src_path, dest_path, src_meta, none⟩] }
          | some de =>
            match de.meta with
            | .error ioe =>
              if ioe.notFound then
                { st with ops := st.ops ++
                    [IoOperation.CopyFileIfNeeded ⟨src_path, dest_path, src_meta, none⟩] }
              else
                { st with logs := st.logs ++
                    [⟨SyncLogLevel.Error,
                      "Failed to read information about " ++ dest_path ++ ": " ++ ioe.msg⟩] }
            | .ok dest_meta =>
              if dest_meta.kind = FileKind.dir then
                { st with ops := st.ops ++
                    [IoOperation.DeleteDirAll dest_path,
                     IoOperation.CopyFileIfNeeded ⟨src_path, dest_path, src_meta, some dest_meta⟩] }
              else if dest_meta.kind = FileKind.file then
                { st with ops := st.ops ++
                    [IoOperation.CopyFileIfNeeded ⟨src_path, dest_path, src_meta, some dest_meta⟩] }
              else
                { st with logs := st.logs ++
                    [⟨SyncLogLevel.Info,
                      "Skipping file due to symlink at destination: " ++ src_path⟩] }
        else
          st

/-- One iteration of the delete-extras pass (src/src/sync.rs lines 392-407). -/
def deleteExtraStep (st : WalkState) (de : DestEntry) : WalkState :=
  match de.meta with
  | .error ioe =>
    { st with logs := st.logs ++
        [⟨SyncLogLevel.Error,
          "Failed to read information about " ++ de.path ++ ": " ++ ioe.msg⟩] }
  | .ok m =>
    if m.kind = FileKind.dir then
      { st with ops := st.ops ++ [IoOperation.DeleteDirAll de.path] }
    else if m.kind = FileKind.file then
      { st with ops := st.ops ++ [IoOperation.DeleteFile de.path] }
    else
      st

/-- sync_dir (src/src/sync.rs lines 271-408). -/
def sync_dir (env : SyncDirEnv) (src_dir dest_dir : String) : SyncDirResult :=
  let actions := ensureDestDirActions env dest_dir
  match env.destListing with
  | .error err =>
    { panicked := false
      logs := [⟨SyncLogLevel.Error,
        "Failed to get the list of files in " ++ dest_dir ++ ": " ++ err⟩]
      actions := actions, dirTasks := [], ops := [] }
  | .ok destRaw =>
    let destEntries : List DestEntry := destRaw.filterMap (fun r =>
      match r with
      | .ok e => some e
      | .error _ => none)
    let readErrLogs : List SyncLogEntry := destRaw.filterMap (fun r =>
      match r with
      | .ok _ => none
      | .error msg => some ⟨SyncLogLevel.Error,
          "Failed to read the name of a file in " ++ dest_dir ++ ": " ++ msg⟩)
    match env.srcListing with
    | .error _ =>
      { panicked := true, logs := readErrLogs, actions := actions
        dirTasks := [], ops := [] }
    | .ok srcRaw =>
      let walked := srcRaw.foldl (walkStep env.filter src_dir dest_dir)
        { logs := readErrLogs, dirTasks := [], ops := [], remaining := destEntries }
      let final := walked.remaining.foldl deleteExtraStep { walked with remaining := [] }
      { panicked := false, logs := final.logs, actions := actions
        dirTasks := final.dirTasks, ops := final.ops }

/-! ## Worker loop and termination protocol
(src/src/sync.rs, run lines 186-200, sync_thread lines 202-251,
add_to_sync_dir_queue / add_to_op_queue lines 261-269, is_done lines 177-180).

The N workers and the two shared SegQueues form a small-step transition
system.  Only queue occupancy matters to the protocol (the queues' contents
never influence it), so each queue is embedded as its length.  Each worker is
at one of the program points of sync_thread:

* `running`    — top of the loop, about to try `op_queue.try_pop()`;
* `workingOp`  — popped an op and is executing it (ops push nothing);
* `checkedOp`  — the op-queue try_pop returned None; about to try the
                 dir-queue;
* `scanning`   — popped a dir pair and is inside sync_dir, which may push
                 any number of further ops and dir pairs;
* `checked`    — both try_pops returned None; about to take the done mutex;
* `waitingPc`  — parked in the condvar wait, counted in waiting_count;
* `exited`     — broke out of the loop.

Every mutex-protected compound (the three-way branch at lines 235-248) is a
single transition; the queue probes and pushes happen outside the mutex and
are separate transitions, exactly as in the source.  Workers may be woken
from the condvar at any time (a superset of the notifications the source
performs, which is sound for the safety properties proved here).  The
waiting_count u8 is incremented under the mutex when a worker parks and
decremented under the mutex as soon as its wait returns, so at every mutex
acquisition it equals the number of workers at `waitingPc`; the model reads
that count directly. -/

inductive Pc
  | running
  | workingOp
  | checkedOp
  | scanning
  | checked
  | waitingPc
  | exited
deriving DecidableEq

structure Cfg (n : Nat) where
  opQ : Nat
  dirQ : Nat
  done : Bool
  pcs : Fin n → Pc

/-- The DoneData.waiting_count field as read under the mutex. -/
def waitingCount {n : Nat} (pcs : Fin n → Pc) : Nat :=
  (Finset.univ.filter (fun i => pcs i = Pc.waitingPc)).card

/-- SyncOperation::run seeds the dir-queue with the configured pairs before
spawning the workers (src/src/sync.rs lines 186-199). -/
def initCfg (n dirs : Nat) : Cfg n :=
  { opQ := 0, dirQ := dirs, done := false, pcs := fun _ => Pc.running }

/-- One transition of one worker (src/src/sync.rs lines 202-251). -/
inductive Step {n : Nat} : Cfg n → Cfg n → Prop
  | popOp (c : Cfg n) (i : Fin n) (k : Nat)
      (hp : c.pcs i = Pc.running) (hq : c.opQ = k + 1) :
      Step c { c with opQ := k, pcs := Function.update c.pcs i Pc.workingOp }
  | noOp (c : Cfg n) (i : Fin n)
      (hp : c.pcs i = Pc.running) (hq : c.opQ = 0) :
      Step c { c with pcs := Function.update c.pcs i Pc.checkedOp }
  | finishOp (c : Cfg n) (i : Fin n) (hp : c.pcs i = Pc.workingOp) :
      Step c { c with pcs := Function.update c.pcs i Pc.running }
  | popDir (c : Cfg n) (i : Fin n) (k : Nat)
      (hp : c.pcs i = Pc.checkedOp) (hq : c.dirQ = k + 1) :
      Step c { c with dirQ := k, pcs := Function.update c.pcs i Pc.scanning }
  | noDir (c : Cfg n) (i : Fin n)
      (hp : c.pcs i = Pc.checkedOp) (hq : c.dirQ = 0) :
      Step c { c with pcs := Function.update c.pcs i Pc.checked }
  | scanPushOp (c : Cfg n) (i : Fin n) (hp : c.pcs i = Pc.scanning) :
      Step c { c with opQ := c.opQ + 1 }
  | scanPushDir (c : Cfg n) (i : Fin n) (hp : c.pcs i = Pc.scanning) :
      Step c { c with dirQ := c.dirQ + 1 }
  | finishScan (c : Cfg n) (i : Fin n) (hp : c.pcs i = Pc.scanning) :
      Step c { c with pcs := Function.update c.pcs i Pc.running }
  | exitDone (c : Cfg n) (i : Fin n)
      (hp : c.pcs i = Pc.checked) (hd : c.done = true) :
      Step c { c with pcs := Function.update c.pcs i Pc.exited }
  | setDone (c : Cfg n) (i : Fin n)
      (hp : c.pcs i = Pc.checked) (hd : c.done = false)
      (hw : waitingCount c.pcs = n - 1) :
      Step c { c with done := true, pcs := Function.update c.pcs i Pc.exited }
  | park (c : Cfg n) (i : Fin n)
      (hp : c.pcs i = Pc.checked) (hd : c.done = false)
      (hw : waitingCount c.pcs ≠ n - 1) :
      Step c { c with pcs := Function.update c.pcs i Pc.waitingPc }
  | wake (c : Cfg n) (i : Fin n) (hp : c.pcs i = Pc.waitingPc) :
      Step c { c with pcs := Function.update c.pcs i Pc.running }

def Reachable (n dirs : Nat) (c : Cfg n) : Prop :=
  Relation.ReflTransGen Step (initCfg n dirs) c

/-- SyncOperation::is_done (src/src/sync.rs lines 177-180): it locks the
done mutex and returns the done flag. -/
def is_done {n : Nat} (c : Cfg n) : Bool := c.done

/-- A worker that is executing a task (and, if scanning, may push work). -/
def Pc.busy (p : Pc) : Prop := p = Pc.workingOp ∨ p = Pc.scanning

/-- A worker that may still come to push onto the op-queue before its next
op-queue emptiness observation. -/
def Pc.activeOp (p : Pc) : Prop := p = Pc.running ∨ p.busy

/-- A worker that may still come to push onto the dir-queue before its next
dir-queue emptiness observation. -/
def Pc.activeDir (p : Pc) : Prop := p.activeOp ∨ p = Pc.checkedOp

/-- The inductive invariant of the termination protocol:
1. a nonempty op-queue is witnessed by a worker that has not yet observed it
   empty;
2. likewise for the dir-queue (a worker at checkedOp has not yet probed it);
3. once done is set, both queues are empty and no worker is executing a
   task;
4. a worker can only have exited after done was set. -/
def Inv {n : Nat} (c : Cfg n) : Prop :=
  (c.opQ ≠ 0 → ∃ i, (c.pcs i).activeOp) ∧
  (c.dirQ ≠ 0 → ∃ i, (c.pcs i).activeDir) ∧
  (c.done = true → c.opQ = 0 ∧ c.dirQ = 0 ∧ ∀ i, ¬ (c.pcs i).busy) ∧
  (∀ i, c.pcs i = Pc.exited → c.done = true)

/-! ### Invariant proof for the termination protocol -/

lemma all_waiting_of_count {n : Nat} (pcs : Fin n → Pc) (i : Fin n)
    (hi : pcs i ≠ Pc.waitingPc) (hw : waitingCount pcs = n - 1) :
    ∀ j, j ≠ i → pcs j = Pc.waitingPc := by
  intro j hj
  have hsub : (Finset.univ.filter (fun k => pcs k = Pc.waitingPc)) ⊆ Finset.univ.erase i := by
    intro k hk
    have hkw := (Finset.mem_filter.mp hk).2
    refine Finset.mem_erase.mpr ⟨?_, Finset.mem_univ k⟩
    intro hki
    exact hi (hki ▸ hkw)
  have hcard : (Finset.univ.erase i).card = n - 1 := by
    rw [Finset.card_erase_of_mem (Finset.mem_univ i), Finset.card_univ, Fintype.card_fin]
  have heq : (Finset.univ.filter (fun k => pcs k = Pc.waitingPc)) = Finset.univ.erase i := by
    refine Finset.eq_of_subset_of_card_le hsub ?_
    rw [hcard]
    rw [waitingCount] at hw
    exact le_of_eq hw.symm
  have hjmem : j ∈ Finset.univ.erase i := Finset.mem_erase.mpr ⟨hj, Finset.mem_univ j⟩
  rw [← heq] at hjmem
  exact (Finset.mem_filter.mp hjmem).2

lemma exists_P_update {n : Nat} {pcs : Fin n → Pc} {i : Fin n} {v : Pc} {P : Pc → Prop}
    (h : ∃ j, P (pcs j)) (hiv : P (pcs i) → P v) :
    ∃ j, P (Function.update pcs i v j) := by
  obtain ⟨j, hj⟩ := h
  by_cases hji : j = i
  · subst hji
    exact ⟨j, by rw [Function.update_same]; exact hiv hj⟩
  · exact ⟨j, by rw [Function.update_noteq hji]; exact hj⟩

lemma update_eq_exited {n : Nat} {pcs : Fin n → Pc} {i j : Fin n} {v : Pc}
    (hv : v ≠ Pc.exited) (hj : Function.update pcs i v j = Pc.exited) :
    pcs j = Pc.exited := by
  by_cases hji : j = i
  · subst hji
    rw [Function.update_same] at hj
    exact absurd hj hv
  · rwa [Function.update_noteq hji] at hj

lemma not_busy_update {n : Nat} {pcs : Fin n → Pc} {i : Fin n} {v : Pc}
    (hv : ¬ v.busy) (h : ∀ j, ¬ (pcs j).busy) :
    ∀ j, ¬ (Function.update pcs i v j).busy := by
  intro j
  by_cases hji : j = i
  · subst hji
    rw [Function.update_same]
    exact hv
  · rw [Function.update_noteq hji]
    exact h j

theorem inv_init (n dirs : Nat) (hn : 1 ≤ n) : Inv (initCfg n dirs) := by
  refine ⟨?_, ?_, ?_, ?_⟩
  · intro h
    exact absurd rfl h
  · intro _
    exact ⟨⟨0, hn⟩, Or.inl (Or.inl rfl)⟩
  · intro h
    simp [initCfg] at h
  · intro i h
    simp [initCfg] at h

/-- At the moment a worker at `checked` observes `waiting_count = n - 1`
under the mutex, both queues are genuinely empty and every other worker is
parked. -/
lemma quiesce {n : Nat} {c : Cfg n} (hinv : Inv c) (i : Fin n)
    (hp : c.pcs i = Pc.checked) (hw : waitingCount c.pcs = n - 1) :
    c.opQ = 0 ∧ c.dirQ = 0 ∧ ∀ j, j ≠ i → c.pcs j = Pc.waitingPc := by
  obtain ⟨h1, h2, h3, h4⟩ := hinv
  have hiw : c.pcs i ≠ Pc.waitingPc := by rw [hp]; intro h; exact Pc.noConfusion h
  have hall : ∀ j, j ≠ i → c.pcs j = Pc.waitingPc := all_waiting_of_count c.pcs i hiw hw
  have hop : c.opQ = 0 := by
    by_contra h0
    obtain ⟨j, hj⟩ := h1 h0
    by_cases hji : j = i
    · subst hji
      rw [hp] at hj
      simp [Pc.activeOp, Pc.busy] at hj
    · rw [hall j hji] at hj
      simp [Pc.activeOp, Pc.busy] at hj
  have hdir : c.dirQ = 0 := by
    by_contra h0
    obtain ⟨j, hj⟩ := h2 h0
    by_cases hji : j = i
    · subst hji
      rw [hp] at hj
      simp [Pc.activeDir, Pc.activeOp, Pc.busy] at hj
    · rw [hall j hji] at hj
      simp [Pc.activeDir, Pc.activeOp, Pc.busy] at hj
  exact ⟨hop, hdir, hall⟩

theorem inv_step {n : Nat} {c c2 : Cfg n} (hs : Step c c2) (hinv : Inv c) : Inv c2 := by
  obtain ⟨h1, h2, h3, h4⟩ := hinv
  cases hs with
  | popOp i k hp hq =>
    refine ⟨?_, ?_, ?_, ?_⟩
    · intro _
      refine ⟨i, ?_⟩
      show (Function.update c.pcs i Pc.workingOp i).activeOp
      rw [Function.update_same]
      exact Or.inr (Or.inl rfl)
    · intro h0
      exact exists_P_update (h2 h0) (fun _ => Or.inl (Or.inr (Or.inl rfl)))
    · intro hdone
      have hop := (h3 hdone).1
      rw [hq] at hop
      exact (Nat.succ_ne_zero k hop).elim
    · intro j hj
      exact h4 j (update_eq_exited (by intro h; exact Pc.noConfusion h) hj)
  | noOp i hp hq =>
    refine ⟨?_, ?_, ?_, ?_⟩
    · intro h0
      have h0c : c.opQ ≠ 0 := h0
      exact absurd hq h0c
    · intro h0
      exact exists_P_update (h2 h0) (fun _ => Or.inr rfl)
    · intro hdone
      refine ⟨(h3 hdone).1, (h3 hdone).2.1, ?_⟩
      exact not_busy_update (by simp [Pc.busy]) (h3 hdone).2.2
    · intro j hj
      exact h4 j (update_eq_exited (by intro h; exact Pc.noConfusion h) hj)
  | finishOp i hp =>
    refine ⟨?_, ?_, ?_, ?_⟩
    · intro h0
      exact exists_P_update (h1 h0) (fun _ => Or.inl rfl)
    · intro h0
      exact exists_P_update (h2 h0) (fun _ => Or.inl (Or.inl rfl))
    · intro hdone
      exact ((h3 hdone).2.2 i (Or.inl hp)).elim
    · intro j hj
      exact h4 j (update_eq_exited (by intro h; exact Pc.noConfusion h) hj)
  | popDir i k hp hq =>
    refine ⟨?_, ?_, ?_, ?_⟩
    · intro h0
      exact exists_P_update (h1 h0) (fun _ => Or.inr (Or.inr rfl))
    · intro _
      refine ⟨i, ?_⟩
      show (Function.update c.pcs i Pc.scanning i).activeDir
      rw [Function.update_same]
      exact Or.inl (Or.inr (Or.inr rfl))
    · intro hdone
      have hdq := (h3 hdone).2.1
      rw [hq] at hdq
      exact (Nat.succ_ne_zero k hdq).elim
    · intro j hj
      exact h4 j (update_eq_exited (by intro h; exact Pc.noConfusion h) hj)
  | noDir i hp hq =>
    refine ⟨?_, ?_, ?_, ?_⟩
    · intro h0
      refine exists_P_update (h1 h0) ?_
      rw [hp]
      intro hx
      simp [Pc.activeOp, Pc.busy] at hx
    · intro h0
      have h0c : c.dirQ ≠ 0 := h0
      exact absurd hq h0c
    · intro hdone
      refine ⟨(h3 hdone).1, (h3 hdone).2.1, ?_⟩
      exact not_busy_update (by simp [Pc.busy]) (h3 hdone).2.2
    · intro j hj
      exact h4 j (update_eq_exited (by intro h; exact Pc.noConfusion h) hj)
  | scanPushOp i hp =>
    refine ⟨?_, ?_, ?_, ?_⟩
    · intro _
      exact ⟨i, by rw [hp]; exact Or.inr (Or.inr rfl)⟩
    · intro h0
      exact h2 h0
    · intro hdone
      exact ((h3 hdone).2.2 i (Or.inr hp)).elim
    · intro j hj
      exact h4 j hj
  | scanPushDir i hp =>
    refine ⟨?_, ?_, ?_, ?_⟩
    · intro h0
      exact h1 h0
    · intro _
      exact ⟨i, by rw [hp]; exact Or.inl (Or.inr (Or.inr rfl))⟩
    · intro hdone
      exact ((h3 hdone).2.2 i (Or.inr hp)).elim
    · intro j hj
      exact h4 j hj
  | finishScan i hp =>
    refine ⟨?_, ?_, ?_, ?_⟩
    · intro h0
      exact exists_P_update (h1 h0) (fun _ => Or.inl rfl)
    · intro h0
      exact exists_P_update (h2 h0) (fun _ => Or.inl (Or.inl rfl))
    · intro hdone
      exact ((h3 hdone).2.2 i (Or.inr hp)).elim
    · intro j hj
      exact h4 j (update_eq_exited (by intro h; exact Pc.noConfusion h) hj)
  | exitDone i hp hd =>
    refine ⟨?_, ?_, ?_, ?_⟩
    · intro h0
      have h0c : c.opQ ≠ 0 := h0
      exact absurd (h3 hd).1 h0c
    · intro h0
      have h0c : c.dirQ ≠ 0 := h0
      exact absurd (h3 hd).2.1 h0c
    · intro _
      refine ⟨(h3 hd).1, (h3 hd).2.1, ?_⟩
      exact not_busy_update (by simp [Pc.busy]) (h3 hd).2.2
    · intro j _
      exact hd
  | setDone i hp hd hw =>
    have hq := quiesce ⟨h1, h2, h3, h4⟩ i hp hw
    refine ⟨?_, ?_, ?_, ?_⟩
    · intro h0
      have h0c : c.opQ ≠ 0 := h0
      exact absurd hq.1 h0c
    · intro h0
      have h0c : c.dirQ ≠ 0 := h0
      exact absurd hq.2.1 h0c
    · intro _
      refine ⟨hq.1, hq.2.1, ?_⟩
      intro j
      show ¬ (Function.update c.pcs i Pc.exited j).busy
      by_cases hji : j = i
      · subst hji
        rw [Function.update_same]
        simp [Pc.busy]
      · rw [Function.update_noteq hji, hq.2.2 j hji]
        simp [Pc.busy]
    · intro j _
      rfl
  | park i hp hd hw =>
    refine ⟨?_, ?_, ?_, ?_⟩
    · intro h0
      refine exists_P_update (h1 h0) ?_
      rw [hp]
      intro hx
      simp [Pc.activeOp, Pc.busy] at hx
    · intro h0
      refine exists_P_update (h2 h0) ?_
      rw [hp]
      intro hx
      simp [Pc.activeDir, Pc.activeOp, Pc.busy] at hx
    · intro hdone
      have hdc : c.done = true := hdone
      rw [hd] at hdc
      exact Bool.noConfusion hdc
    · intro j hj
      exact h4 j (update_eq_exited (by intro h; exact Pc.noConfusion h) hj)
  | wake i hp =>
    refine ⟨?_, ?_, ?_, ?_⟩
    · intro h0
      exact exists_P_update (h1 h0) (fun _ => Or.inl rfl)
    · intro h0
      exact exists_P_update (h2 h0) (fun _ => Or.inl (Or.inl rfl))
    · intro hdone
      refine ⟨(h3 hdone).1, (h3 hdone).2.1, ?_⟩
      exact not_busy_update (by simp [Pc.busy]) (h3 hdone).2.2
    · intro j hj
      exact h4 j (update_eq_exited (by intro h; exact Pc.noConfusion h) hj)

theorem inv_reachable {n dirs : Nat} (hn : 1 ≤ n) {c : Cfg n}
    (hr : Reachable n dirs c) : Inv c := by
  induction hr with
  | refl => exact inv_init n dirs hn
  | tail hsteps hstep ih => exact inv_step hstep ih

/-- A step either leaves the done flag alone, or is the setDone transition:
taken by a worker at `checked` that observed `waiting_count = n - 1`. -/
lemma step_done_eq {n : Nat} {c c2 : Cfg n} (hs : Step c c2) :
    c2.done = c.done ∨
    (∃ i, c.pcs i = Pc.checked ∧ c.done = false ∧
      waitingCount c.pcs = n - 1 ∧ c2.done = true) := by
  cases hs
  case setDone i hp hd hw => exact Or.inr ⟨i, hp, hd, hw, rfl⟩
  all_goals exact Or.inl rfl

lemma done_mono_step {n : Nat} {c c2 : Cfg n} (hs : Step c c2)
    (hd : c.done = true) : c2.done = true := by
  rcases step_done_eq hs with h | ⟨_, _, _, _, h⟩
  · rw [h, hd]
  · exact h

lemma done_mono_steps {n : Nat} {c c2 : Cfg n}
    (hs : Relation.ReflTransGen Step c c2) (hd : c.done = true) : c2.done = true := by
  induction hs with
  | refl => exact hd
  | tail hsteps hstep ih => exact done_mono_step hstep ih

/-! ### Concrete executions of the protocol, used as witnesses -/

def i01 : Fin 1 := ⟨0, Nat.zero_lt_one⟩

/-- One worker, empty configuration: it probes both queues, then sets done. -/
def tc0 : Cfg 1 := initCfg 1 0

def tc1 : Cfg 1 := { tc0 with pcs := Function.update tc0.pcs i01 Pc.checkedOp }

def tc2 : Cfg 1 := { tc1 with pcs := Function.update tc1.pcs i01 Pc.checked }

def tc3 : Cfg 1 := { tc2 with done := true, pcs := Function.update tc2.pcs i01 Pc.exited }

lemma step_tc01 : Step tc0 tc1 := Step.noOp tc0 i01 rfl rfl

lemma step_tc12 : Step tc1 tc2 := Step.noDir tc1 i01 (by decide) rfl

lemma step_tc23 : Step tc2 tc3 := Step.setDone tc2 i01 (by decide) rfl (by decide)

lemma reach_tc3 : Reachable 1 0 tc3 :=
  ((Relation.ReflTransGen.refl.tail step_tc01).tail step_tc12).tail step_tc23

def i02 : Fin 2 := ⟨0, by decide⟩

def i12 : Fin 2 := ⟨1, by decide⟩

/-- Two workers, empty configuration: worker 0 parks, then worker 1 sets the
done flag and exits while worker 0 is still parked in the condvar wait. -/
def dc0 : Cfg 2 := initCfg 2 0

def dc1 : Cfg 2 := { dc0 with pcs := Function.update dc0.pcs i02 Pc.checkedOp }

def dc2 : Cfg 2 := { dc1 with pcs := Function.update dc1.pcs i02 Pc.checked }

def dc3 : Cfg 2 := { dc2 with pcs := Function.update dc2.pcs i02 Pc.waitingPc }

def dc4 : Cfg 2 := { dc3 with pcs := Function.update dc3.pcs i12 Pc.checkedOp }

def dc5 : Cfg 2 := { dc4 with pcs := Function.update dc4.pcs i12 Pc.checked }

def dc6 : Cfg 2 := { dc5 with done := true, pcs := Function.update dc5.pcs i12 Pc.exited }

lemma step_dc01 : Step dc0 dc1 := Step.noOp dc0 i02 rfl rfl

lemma step_dc12 : Step dc1 dc2 := Step.noDir dc1 i02 (by decide) rfl

lemma step_dc23 : Step dc2 dc3 := Step.park dc2 i02 (by decide) rfl (by decide)

lemma step_dc34 : Step dc3 dc4 := Step.noOp dc3 i12 (by decide) rfl

lemma step_dc45 : Step dc4 dc5 := Step.noDir dc4 i12 (by decide) rfl

lemma step_dc56 : Step dc5 dc6 := Step.setDone dc5 i12 (by decide) rfl (by decide)

lemma reach_dc6 : Reachable 2 0 dc6 :=
  (((((Relation.ReflTransGen.refl.tail step_dc01).tail step_dc12).tail
    step_dc23).tail step_dc34).tail step_dc45).tail step_dc56

/-! ### Claims C5, C6, C10 -/

/-- C5: in every reachable state of the N-worker termination protocol
(N = parallel_copies ≥ 1), the done flag is set only by a worker that,
holding the mutex, observed waiting == N − 1 after having found both the
op-queue and the dir-queue empty (being at `checked` is exactly having seen
both try_pops return None); at that instant both queues are genuinely empty
and every other worker is parked; consequently, whenever done is true both
queues are empty and remain empty for the rest of the run. -/
theorem c5_done_only_at_quiescence (n dirs : Nat) (hn : 1 ≤ n) (c : Cfg n)
    (hr : Reachable n dirs c) :
    (c.done = true → c.opQ = 0 ∧ c.dirQ = 0) ∧
    (∀ c2, Step c c2 → c.done = false → c2.done = true →
      ∃ i, c.pcs i = Pc.checked ∧ waitingCount c.pcs = n - 1 ∧
        c.opQ = 0 ∧ c.dirQ = 0 ∧ ∀ j, j ≠ i → c.pcs j = Pc.waitingPc) ∧
    (∀ c2, Relation.ReflTransGen Step c c2 → c.done = true →
      c2.opQ = 0 ∧ c2.dirQ = 0 ∧ c2.done = true) := by
  have hinv := inv_reachable hn hr
  refine ⟨?_, ?_, ?_⟩
  · intro hd
    exact ⟨(hinv.2.2.1 hd).1, (hinv.2.2.1 hd).2.1⟩
  · intro c2 hs hdf hdt
    rcases step_done_eq hs with h | ⟨i, hp, _, hw, _⟩
    · rw [h, hdf] at hdt
      exact Bool.noConfusion hdt
    · have hq := quiesce hinv i hp hw
      exact ⟨i, hp, hw, hq.1, hq.2.1, hq.2.2⟩
  · intro c2 hsteps hd
    have hd2 := done_mono_steps hsteps hd
    have hinv2 := inv_reachable hn (hr.trans hsteps)
    exact ⟨(hinv2.2.2.1 hd2).1, (hinv2.2.2.1 hd2).2.1, hd2⟩

theorem c5_witness : tc3.done = true ∧ tc3.opQ = 0 ∧ tc3.dirQ = 0 :=
  ⟨rfl, (c5_done_only_at_quiescence 1 0 Nat.le.refl tc3 reach_tc3).1 rfl⟩

/-- C6 counterexample: the claim says is_done returns true iff all N
workers have exited.  In the reachable state dc6 (two workers, no work),
is_done already returns true while worker 0 is still parked in the condvar
wait, not exited. -/
theorem c6_counterexample :
    Reachable 2 0 dc6 ∧ is_done dc6 = true ∧ dc6.pcs i02 ≠ Pc.exited :=
  ⟨reach_dc6, rfl, by decide⟩

/-- C6 amended: is_done returns the done flag, read under the mutex.
When it returns true, quiescence has been observed: both queues are empty
and no worker is executing a task — but a worker may still be parked rather
than exited.  Conversely, once all workers have exited it returns true. -/
theorem c6_is_done_amended (n dirs : Nat) (hn : 1 ≤ n) (c : Cfg n)
    (hr : Reachable n dirs c) :
    (is_done c = true → c.opQ = 0 ∧ c.dirQ = 0 ∧ ∀ i, ¬ (c.pcs i).busy) ∧
    ((∀ i, c.pcs i = Pc.exited) → is_done c = true) := by
  have hinv := inv_reachable hn hr
  exact ⟨fun hd => hinv.2.2.1 hd, fun hall => hinv.2.2.2 ⟨0, hn⟩ (hall ⟨0, hn⟩)⟩

theorem c6_witness : tc3.opQ = 0 ∧ tc3.dirQ = 0 ∧ ∀ i, ¬ (tc3.pcs i).busy :=
  (c6_is_done_amended 1 0 Nat.le.refl tc3 reach_tc3).1 rfl

lemma no_step_zero {c c2 : Cfg 0} (hs : Step c c2) : False := by
  cases hs <;> exact (‹Fin 0›).elim0

/-- C10: the builder's u8 setter accepts parallel_copies = 0; sync() then
seeds the dir-queue and spawns zero workers, so no transition is ever taken:
the run stays at its initial state forever, the done flag is never set, and
is_done returns false forever — even for an empty list of directory pairs. -/
theorem c10_zero_workers :
    (SyncBuilder.with_parallel_copies SyncBuilder.new 0).parallel_copies = (0 : Fin 256) ∧
    ∀ dirs : Nat, ∀ c : Cfg 0, Reachable 0 dirs c →
      c = initCfg 0 dirs ∧ is_done c = false := by
  refine ⟨rfl, ?_⟩
  intro dirs c hr
  induction hr with
  | refl => exact ⟨rfl, rfl⟩
  | tail hsteps hstep ih => exact (no_step_zero hstep).elim

theorem c10_witness :
    initCfg 0 0 = initCfg 0 0 ∧ is_done (initCfg 0 0) = false :=
  c10_zero_workers.2 0 (initCfg 0 0) Relation.ReflTransGen.refl

/-! ### Helper lemmas about the decider and copier -/

/-- compare_start_end_equal pushes log entries only on its error paths. -/
lemma compare_cases (opts : SyncBuilder) (data : CopyFileIfNeededData)
    (srcOpen destOpen : Option (List Nat)) :
    (compare_start_end_equal opts data srcOpen destOpen).snd = [] ∨
    (compare_start_end_equal opts data srcOpen destOpen).fst = Except.error () := by
  unfold compare_start_end_equal
  rcases srcOpen with _ | sb
  · exact Or.inr rfl
  rcases destOpen with _ | db
  · exact Or.inr rfl
  dsimp only
  split
  · split
    · split
      · split
        · exact Or.inl rfl
        · exact Or.inl rfl
      · exact Or.inl rfl
    · exact Or.inr rfl
  · exact Or.inr rfl

lemma compare_snd_nil_of_ok (opts : SyncBuilder) (data : CopyFileIfNeededData)
    (srcOpen destOpen : Option (List Nat)) (b : Bool)
    (h : (compare_start_end_equal opts data srcOpen destOpen).fst = Except.ok b) :
    (compare_start_end_equal opts data srcOpen destOpen).snd = [] := by
  rcases compare_cases opts data srcOpen destOpen with h1 | h2
  · exact h1
  · rw [h] at h2
    exact Except.noConfusion h2

/-- Comparing a file with itself (same bytes on both sides, source metadata
length within the file) yields Ok(true) and no log entry. -/
lemma compare_self (opts : SyncBuilder) (data : CopyFileIfNeededData) (bs : List Nat)
    (h : data.src_meta.len ≤ bs.length) :
    compare_start_end_equal opts data (some bs) (some bs) = (Except.ok true, []) := by
  unfold compare_start_end_equal
  cases hdm : data.dest_meta with
  | none =>
    have hle : min opts.copy_contents_if_start_end_mismatched_size data.src_meta.len ≤
        bs.length := le_trans (min_le_right _ _) h
    dsimp only
    rw [if_pos hle, if_pos hle, if_pos rfl, if_pos rfl]
  | some dm =>
    have hle : min (min opts.copy_contents_if_start_end_mismatched_size data.src_meta.len)
        dm.len ≤ bs.length := le_trans (min_le_left _ _) (le_trans (min_le_right _ _) h)
    dsimp only
    rw [if_pos hle, if_pos hle, if_pos rfl, if_pos rfl]

/-- Either the decider pushed no log entry, or it did not return None. -/
lemma should_copy_snd_cases (opts : SyncBuilder) (data : CopyFileIfNeededData)
    (srcOpen destOpen : Option (List Nat)) :
    (should_copy_file opts data srcOpen destOpen).snd = [] ∨
    (should_copy_file opts data srcOpen destOpen).fst ≠ CopyReason.None := by
  obtain ⟨src, dest, ⟨skind, slen, smod⟩, dmeta⟩ := data
  unfold should_copy_file
  cases smod with
  | none =>
    dsimp only
    exact Or.inr (fun hh => CopyReason.noConfusion hh)
  | some sm =>
    cases dmeta with
    | none =>
      dsimp only
      exact Or.inr (fun hh => CopyReason.noConfusion hh)
    | some dm =>
      obtain ⟨dkind, dlen, dmod⟩ := dm
      cases dmod with
      | none =>
        dsimp only
        exact Or.inr (fun hh => CopyReason.noConfusion hh)
      | some dmod =>
        dsimp only
        split
        · exact Or.inr (fun hh => CopyReason.noConfusion hh)
        · split
          · exact Or.inr (fun hh => CopyReason.noConfusion hh)
          · split
            · split
              · exact Or.inr (fun hh => CopyReason.noConfusion hh)
              · rename_i hgd
                rcases compare_cases opts ⟨src, dest, ⟨skind, slen, some sm⟩,
                    some ⟨dkind, dlen, some dmod⟩⟩ srcOpen destOpen with h1 | h2
                · exact Or.inl h1
                · rw [h2] at hgd
                  exact absurd rfl hgd
            · exact Or.inl rfl

/-- When the decider returns None it has pushed no log entry. -/
lemma should_copy_none_snd (opts : SyncBuilder) (data : CopyFileIfNeededData)
    (srcOpen destOpen : Option (List Nat))
    (h : (should_copy_file opts data srcOpen destOpen).fst = CopyReason.None) :
    (should_copy_file opts data srcOpen destOpen).snd = [] := by
  rcases should_copy_snd_cases opts data srcOpen destOpen with h1 | h2
  · exact h1
  · exact absurd h h2

/-- copy_file_if_needed on a None decision: no log entry, no write, no
stamper call — it just returns. -/
lemma copy_none_eq (opts : SyncBuilder) (data : CopyFileIfNeededData)
    (srcOpen destOpen : Option (List Nat)) (destCreateOk copyOk : Bool)
    (writtenOnFail : List Nat)
    (h : (should_copy_file opts data srcOpen destOpen).fst = CopyReason.None) :
    copy_file_if_needed opts data srcOpen destOpen destCreateOk copyOk writtenOnFail =
      { reason := CopyReason.None, logs := [], effect := CopyEffect.noWrite,
        stamperCalls := [] } := by
  have hs := should_copy_none_snd opts data srcOpen destOpen h
  unfold copy_file_if_needed
  rw [if_pos h, h, hs]

/-! ### Claim C3: decision order of the decider -/

/-- The decision procedure as the code actually orders it, written from the
amended claim's words for comparison with should_copy_file: the source's
modified time is read first and a failure yields DateMismatched even when
dest_meta is absent; then absence yields Missing; then a failure to read the
destination's modified time yields DateMismatched (even when the date gate
is off); then the three policy gates in the claimed order, where
`headTailEqual` stands for the verdict of the head/tail comparison with
errors treated as non-equal. -/
def decider_amended (opts : SyncBuilder) (data : CopyFileIfNeededData)
    (headTailEqual : Bool) : CopyReason :=
  match data.src_meta.modified with
  | none => CopyReason.DateMismatched
  | some src_modified =>
    match data.dest_meta with
    | none => CopyReason.Missing
    | some dest_meta =>
      match dest_meta.modified with
      | none => CopyReason.DateMismatched
      | some dest_modified =>
        if opts.copy_contents_if_date_mismatched ∧ src_modified ≠ dest_modified then
          CopyReason.DateMismatched
        else if opts.copy_contents_if_size_mismatched ∧ data.src_meta.len ≠ dest_meta.len then
          CopyReason.SizeMismatched
        else if opts.copy_contents_if_start_end_mismatched_size > 0 ∧ headTailEqual = false then
          CopyReason.StartEndMismatched
        else
          CopyReason.None

def data_c3 : CopyFileIfNeededData :=
  { src := "src/a.txt", dest := "dest/a.txt"
    src_meta := { kind := FileKind.file, len := 2, modified := none }
    dest_meta := none }

/-- C3 counterexample: the claim says that whenever dest_meta is absent
the result is Missing regardless of any metadata-read failure.  But the code
reads the source's modified time first: on a task whose dest_meta is absent
and whose source modified time cannot be read, should_copy_file returns
DateMismatched, not Missing. -/
theorem c3_counterexample :
    data_c3.dest_meta = Option.none ∧
    (should_copy_file SyncBuilder.new data_c3 (some [1, 2]) none).fst =
      CopyReason.DateMismatched ∧
    CopyReason.DateMismatched ≠ CopyReason.Missing :=
  ⟨rfl, rfl, by decide⟩

/-- C3 amended: the decider's reason is computed by the claimed ordered
gates, except that reading the source's modified time precedes the dest_meta
check (failure → DateMismatched even when dest_meta is absent) and reading
the destination's modified time precedes the policy gates (failure →
DateMismatched).  should_copy_file agrees with that ordered procedure,
taking for head/tail verdict the comparison's result with errors read as
non-equal. -/
theorem c3_decider_order (opts : SyncBuilder) (data : CopyFileIfNeededData)
    (srcOpen destOpen : Option (List Nat)) :
    (should_copy_file opts data srcOpen destOpen).fst =
      decider_amended opts data
        (exceptGetD (compare_start_end_equal opts data srcOpen destOpen).fst false) := by
  obtain ⟨src, dest, ⟨skind, slen, smod⟩, dmeta⟩ := data
  unfold should_copy_file decider_amended
  cases smod with
  | none => rfl
  | some sm =>
    cases dmeta with
    | none => rfl
    | some dm =>
      obtain ⟨dkind, dlen, dmod⟩ := dm
      cases dmod with
      | none => rfl
      | some dmod =>
        dsimp only
        split
        · rfl
        · split
          · rfl
          · rename_i hdate hsize
            by_cases hht : opts.copy_contents_if_start_end_mismatched_size > 0
            · rw [if_pos hht]
              by_cases hgd : exceptGetD (compare_start_end_equal opts
                  ⟨src, dest, ⟨skind, slen, some sm⟩, some ⟨dkind, dlen, some dmod⟩⟩
                  srcOpen destOpen).fst false = false
              · rw [if_pos hgd, if_pos ⟨hht, hgd⟩]
              · rw [if_neg hgd, if_neg (fun hand => hgd hand.2)]
            · rw [if_neg hht, if_neg (fun hand => hht hand.1)]

/-! ### Claim C9: a None decision is a no-op -/

def data_c9 : CopyFileIfNeededData :=
  { src := "src/c.txt", dest := "dest/c.txt"
    src_meta := { kind := FileKind.file, len := 2, modified := some 5 }
    dest_meta := some { kind := FileKind.file, len := 2, modified := some 9 } }

/-- C9 counterexample: the claim says the copier logs a Debug entry when
the decider returns None.  On a concrete op whose decision is None (equal
sizes, equal bytes, date gate off), the copier pushes no log entry at all —
in particular no Debug entry — and performs no write. -/
theorem c9_counterexample :
    (should_copy_file SyncBuilder.new data_c9 (some [3, 4]) (some [3, 4])).fst =
      CopyReason.None ∧
    (copy_file_if_needed SyncBuilder.new data_c9 (some [3, 4]) (some [3, 4])
      true true []).logs = [] ∧
    (copy_file_if_needed SyncBuilder.new data_c9 (some [3, 4]) (some [3, 4])
      true true []).effect = CopyEffect.noWrite :=
  ⟨rfl, rfl, rfl⟩

/-- C9 amended: for every CopyIfNeeded op for which the decider returns
None, the copier returns immediately without pushing any log entry (so also
no Debug entry), and the destination file is not opened, truncated, or
written. -/
theorem c9_none_returns (opts : SyncBuilder) (data : CopyFileIfNeededData)
    (srcOpen destOpen : Option (List Nat)) (destCreateOk copyOk : Bool)
    (writtenOnFail : List Nat)
    (h : (should_copy_file opts data srcOpen destOpen).fst = CopyReason.None) :
    copy_file_if_needed opts data srcOpen destOpen destCreateOk copyOk writtenOnFail =
      { reason := CopyReason.None, logs := [], effect := CopyEffect.noWrite,
        stamperCalls := [] } :=
  copy_none_eq opts data srcOpen destOpen destCreateOk copyOk writtenOnFail h

theorem c9_witness :
    copy_file_if_needed SyncBuilder.new data_c9 (some [3, 4]) (some [3, 4])
      false false [7] =
      { reason := CopyReason.None, logs := [], effect := CopyEffect.noWrite,
        stamperCalls := [] } :=
  c9_none_returns SyncBuilder.new data_c9 (some [3, 4]) (some [3, 4]) false false [7] rfl

/-! ### Claim C2: the timestamp stamper is never invoked -/

def data_c2 : CopyFileIfNeededData :=
  { src := "src/b.txt", dest := "dest/b.txt"
    src_meta := { kind := FileKind.file, len := 1, modified := some 3 }
    dest_meta := none }

/-- C2 (code bug): the claim (and the spec) say that after a successful
copy the core invokes the timestamp stamper when copy_created_date /
copy_modified_date are enabled.  The code never calls set_created or
set_modified anywhere (the two options are marked "TODO: currently ignored"
in src/src/sync.rs lines 25-26): the copier's stamper-call trace is [] on
every input, including a successful copy under the default policy in which
both options are enabled. -/
theorem c2_stamper_never_called :
    (∀ (opts : SyncBuilder) (data : CopyFileIfNeededData)
      (srcOpen destOpen : Option (List Nat)) (destCreateOk copyOk : Bool)
      (writtenOnFail : List Nat),
      (copy_file_if_needed opts data srcOpen destOpen destCreateOk copyOk
        writtenOnFail).stamperCalls = []) ∧
    SyncBuilder.new.copy_created_date = true ∧
    SyncBuilder.new.copy_modified_date = true ∧
    (copy_file_if_needed SyncBuilder.new data_c2 (some [9]) none true true []).effect =
      CopyEffect.wrote [9] ∧
    (copy_file_if_needed SyncBuilder.new data_c2 (some [9]) none true true
      []).stamperCalls = [] := by
  refine ⟨?_, rfl, rfl, rfl, rfl⟩
  intro opts data srcOpen destOpen destCreateOk copyOk writtenOnFail
  unfold copy_file_if_needed
  dsimp only
  repeat
    first
    | rfl
    | split

/-! ### Claim C7: idempotence of a second run -/

/-- A file as it sits on disk: contents and its created/modified instants. -/
structure FileData where
  bytes : List Nat
  created : Nat
  modified : Nat

/-- Modelled from the spec: the destination file produced by a successful
byte copy.  The OS gives a freshly (re)written file the write instant as its
created/modified times; the spec's Timestamp Stamper capability (§4.4, §6)
exists precisely to overwrite them with the source's times afterwards, and
the core never invokes it (the options are "TODO: currently ignored",
src/src/sync.rs lines 25-26).  So after a successful copy at instant `now`
the destination carries the source's bytes and the instant `now` as its
times. -/
def copiedDest (src : FileData) (now : Nat) : FileData :=
  { bytes := src.bytes, created := now, modified := now }

/-- The metadata snapshot a scan takes of a regular file. -/
def metadataOf (f : FileData) : Metadata :=
  { kind := FileKind.file, len := f.bytes.length, modified := some f.modified }

/-- The CopyIfNeeded task the second run's scanner builds for a file the
first run copied successfully at instant `now`, with no source change in
between. -/
def secondRunTask (srcPath destPath : String) (src : FileData) (now : Nat) :
    CopyFileIfNeededData :=
  { src := srcPath, dest := destPath
    src_meta := metadataOf src
    dest_meta := some (metadataOf (copiedDest src now)) }

def srcFile_c7 : FileData := { bytes := [1, 2], created := 5, modified := 5 }

def opts_c7 : SyncBuilder :=
  { SyncBuilder.new with copy_contents_if_date_mismatched := true }

/-- C7 counterexample: the claim quantifies over every valid Config.
With copy_if_date_mismatched enabled, a file copied successfully by the
first run at instant 7 (source modified at 5, unchanged since) is decided
DateMismatched — not None — by the second run, which recopies its bytes:
the copy left the destination's modified time as the copy instant and the
core never stamps it back (C2). -/
theorem c7_counterexample :
    (should_copy_file opts_c7 (secondRunTask ("s/a") ("d/a") srcFile_c7 7)
        (some srcFile_c7.bytes) (some (copiedDest srcFile_c7 7).bytes)).fst =
      CopyReason.DateMismatched ∧
    CopyReason.DateMismatched ≠ CopyReason.None ∧
    (copy_file_if_needed opts_c7 (secondRunTask ("s/a") ("d/a") srcFile_c7 7)
        (some srcFile_c7.bytes) (some (copiedDest srcFile_c7 7).bytes) true true
        []).effect = CopyEffect.wrote [1, 2] :=
  ⟨rfl, by decide, rfl⟩

/-- C7 amended: with copy_if_date_mismatched disabled (its default),
running the sync again immediately after a completed successful run with no
source changes makes every CopyIfNeeded task of the second run yield
CopyReason None, and the copier changes no file bytes. -/
theorem c7_idempotent_amended (opts : SyncBuilder)
    (hdate : opts.copy_contents_if_date_mismatched = false)
    (srcPath destPath : String) (src : FileData) (now : Nat)
    (destCreateOk copyOk : Bool) (writtenOnFail : List Nat) :
    (should_copy_file opts (secondRunTask srcPath destPath src now)
        (some src.bytes) (some (copiedDest src now).bytes)).fst = CopyReason.None ∧
    copy_file_if_needed opts (secondRunTask srcPath destPath src now)
        (some src.bytes) (some (copiedDest src now).bytes) destCreateOk copyOk
        writtenOnFail =
      { reason := CopyReason.None, logs := [], effect := CopyEffect.noWrite,
        stamperCalls := [] } := by
  have hcmp := compare_self opts (secondRunTask srcPath destPath src now) src.bytes
    (Nat.le_refl src.bytes.length)
  have hnone : (should_copy_file opts (secondRunTask srcPath destPath src now)
      (some src.bytes) (some (copiedDest src now).bytes)).fst = CopyReason.None := by
    unfold should_copy_file
    dsimp only [secondRunTask, metadataOf, copiedDest]
    rw [if_neg (fun hand => by rw [hdate] at hand; exact Bool.noConfusion hand.1)]
    rw [if_neg (fun hand => hand.2 rfl)]
    by_cases hht : opts.copy_contents_if_start_end_mismatched_size > 0
    · rw [if_pos hht]
      rw [if_neg ?hgd]
      case hgd =>
        intro hgd
        have hgd2 : exceptGetD (compare_start_end_equal opts
            (secondRunTask srcPath destPath src now) (some src.bytes)
            (some src.bytes)).fst false = false := hgd
        rw [hcmp] at hgd2
        exact Bool.noConfusion hgd2
    · rw [if_neg hht]
  refine ⟨hnone, copy_none_eq _ _ _ _ _ _ _ hnone⟩

theorem c7_witness :
    (should_copy_file SyncBuilder.new (secondRunTask ("s/a") ("d/a") srcFile_c7 7)
        (some srcFile_c7.bytes) (some (copiedDest srcFile_c7 7).bytes)).fst =
      CopyReason.None ∧
    copy_file_if_needed SyncBuilder.new (secondRunTask ("s/a") ("d/a") srcFile_c7 7)
        (some srcFile_c7.bytes) (some (copiedDest srcFile_c7 7).bytes) true true [] =
      { reason := CopyReason.None, logs := [], effect := CopyEffect.noWrite,
        stamperCalls := [] } :=
  c7_idempotent_amended SyncBuilder.new rfl ("s/a") ("d/a") srcFile_c7 7 true true []

/-! ### Claim C4: the head/tail comparison -/

/-- The head/tail probe as the claim describes it: with
k = min(policy byte count, source length, destination length), true iff the
first k bytes of both files agree and the last k bytes of both files agree. -/
def headTailSpec (policyBytes : Nat) (srcBytes destBytes : List Nat) : Bool :=
  let k := min (min policyBytes srcBytes.length) destBytes.length
  decide (srcBytes.take k = destBytes.take k) &&
    decide ((srcBytes.drop (srcBytes.length - k)).take k =
      (destBytes.drop (destBytes.length - k)).take k)

/-- C4: for every CopyIfNeeded task reaching the head/tail comparison:
(i) with metadata consistent with the opened files, the comparison returns
Ok of exactly the claimed probe with k = min(policy bytes, src length, dest
length), logging nothing; (ii) a source open failure is logged as Error (and
errors the comparison); (iii) any comparison error forces the fail-closed
decision StartEndMismatched in the decider; (iv) k = 0 yields true; (v) a
source read failure (compare size beyond the source file) is logged as
Error. -/
theorem c4_head_tail (opts : SyncBuilder) (data : CopyFileIfNeededData)
    (srcBytes destBytes : List Nat) (srcOpen destOpen : Option (List Nat)) :
    (∀ dm, data.dest_meta = some dm →
      data.src_meta.len = srcBytes.length → dm.len = destBytes.length →
      compare_start_end_equal opts data (some srcBytes) (some destBytes) =
        (Except.ok (headTailSpec opts.copy_contents_if_start_end_mismatched_size
          srcBytes destBytes), [])) ∧
    (compare_start_end_equal opts data none destOpen =
      (Except.error (), [⟨SyncLogLevel.Error, "Failed to open " ++ data.src⟩])) ∧
    (∀ sm dm dmod, data.src_meta.modified = some sm → data.dest_meta = some dm →
      dm.modified = some dmod →
      ¬(opts.copy_contents_if_date_mismatched ∧ sm ≠ dmod) →
      ¬(opts.copy_contents_if_size_mismatched ∧ data.src_meta.len ≠ dm.len) →
      opts.copy_contents_if_start_end_mismatched_size > 0 →
      (compare_start_end_equal opts data srcOpen destOpen).fst = Except.error () →
      (should_copy_file opts data srcOpen destOpen).fst =
        CopyReason.StartEndMismatched) ∧
    (min (min opts.copy_contents_if_start_end_mismatched_size srcBytes.length)
        destBytes.length = 0 →
      headTailSpec opts.copy_contents_if_start_end_mismatched_size srcBytes
        destBytes = true) ∧
    (∀ dm, data.dest_meta = some dm →
      ¬(min (min opts.copy_contents_if_start_end_mismatched_size
          data.src_meta.len) dm.len ≤ srcBytes.length) →
      compare_start_end_equal opts data (some srcBytes) (some destBytes) =
        (Except.error (),
          [⟨SyncLogLevel.Error, "Failed to read " ++ data.src⟩])) := by
  refine ⟨?_, rfl, ?_, ?_, ?_⟩
  · intro dm hdm h1 h2
    unfold compare_start_end_equal headTailSpec
    rw [hdm]
    dsimp only
    rw [h1, h2]
    have hks : min (min opts.copy_contents_if_start_end_mismatched_size
        srcBytes.length) destBytes.length ≤ srcBytes.length :=
      le_trans (min_le_left _ _) (min_le_right _ _)
    have hkd : min (min opts.copy_contents_if_start_end_mismatched_size
        srcBytes.length) destBytes.length ≤ destBytes.length := min_le_right _ _
    rw [if_pos hks, if_pos hkd]
    by_cases hA : srcBytes.take (min (min
        opts.copy_contents_if_start_end_mismatched_size srcBytes.length)
        destBytes.length) =
      destBytes.take (min (min opts.copy_contents_if_start_end_mismatched_size
        srcBytes.length) destBytes.length)
    · rw [if_pos hA, decide_eq_true hA]
      by_cases hB : (srcBytes.drop (srcBytes.length - min (min
          opts.copy_contents_if_start_end_mismatched_size srcBytes.length)
          destBytes.length)).take (min (min
          opts.copy_contents_if_start_end_mismatched_size srcBytes.length)
          destBytes.length) =
        (destBytes.drop (destBytes.length - min (min
          opts.copy_contents_if_start_end_mismatched_size srcBytes.length)
          destBytes.length)).take (min (min
          opts.copy_contents_if_start_end_mismatched_size srcBytes.length)
          destBytes.length)
      · rw [if_pos hB, decide_eq_true hB]
        rfl
      · rw [if_neg hB, decide_eq_false hB]
        rfl
    · rw [if_neg hA, decide_eq_false hA]
      rfl
  · intro sm dm dmod hsm hdm hdmod hdate hsize hht herr
    unfold should_copy_file
    rw [hsm, hdm]
    dsimp only
    rw [hdmod]
    dsimp only
    rw [if_neg hdate, if_neg hsize, if_pos hht, herr]
    rfl
  · intro hk
    unfold headTailSpec
    rw [hk]
    rfl
  · intro dm hdm hgt
    unfold compare_start_end_equal
    rw [hdm]
    dsimp only
    rw [if_neg hgt]

def opts_c4 : SyncBuilder :=
  { SyncBuilder.new with copy_contents_if_start_end_mismatched_size := 2 }

def dm_c4 : Metadata := { kind := FileKind.file, len := 3, modified := some 1 }

def data_c4 : CopyFileIfNeededData :=
  { src := "s/f.bin", dest := "d/f.bin"
    src_meta := { kind := FileKind.file, len := 3, modified := some 1 }
    dest_meta := some dm_c4 }

theorem c4_witness :
    compare_start_end_equal opts_c4 data_c4 (some [1, 2, 3]) (some [1, 2, 4]) =
      (Except.ok false, []) := by
  have h := (c4_head_tail opts_c4 data_c4 [1, 2, 3] [1, 2, 4] none none).1
    dm_c4 rfl rfl rfl
  rw [h]
  rfl

/-! ### Claim C1: errors while scanning a source directory -/

def env_c1 : SyncDirEnv :=
  { destStat := StatResult.found FileKind.dir
    removeFileResult := Except.ok ()
    createDirResult := Except.ok ()
    destListing := Except.ok []
    srcListing := Except.error ("Access is denied")
    filter := fun _ => true }

/-- C1 (code bug): the claim says every filesystem failure — explicitly
including a failure to open or read the listing of a source directory —
yields exactly one Error log entry and the worker moves on.  But
`fs::read_dir(src_dir)` is unwrap()ed (src/src/sync.rs line 313, commented
"TODO: log error instead"): on a dir-task whose source directory cannot be
listed, the worker thread panics, appending no Error entry and not moving
on to the next task. -/
theorem c1_src_listing_panics :
    env_c1.srcListing = Except.error ("Access is denied") ∧
    (sync_dir env_c1 ("C:/Files") ("D:/Backup")).panicked = true ∧
    (sync_dir env_c1 ("C:/Files") ("D:/Backup")).logs = [] :=
  ⟨rfl, rfl, rfl⟩

/-! ### Claim C8: ensuring the destination is a directory -/

def env_c8 : SyncDirEnv :=
  { destStat := StatResult.found FileKind.file
    removeFileResult := Except.error ("Access is denied")
    createDirResult := Except.ok ()
    destListing := Except.ok []
    srcListing := Except.ok []
    filter := fun _ => true }

/-- C8 counterexample: the claim says every stat, deletion, or creation
error in the ensure-destination step is logged.  Here the destination exists
as a regular file, the deletion fails, and the scan emits no log entry at
all. -/
theorem c8_counterexample :
    env_c8.removeFileResult = Except.error ("Access is denied") ∧
    (sync_dir env_c8 ("s") ("d")).actions =
      [FsAction.removeFile ("d"), FsAction.createDir ("d")] ∧
    (sync_dir env_c8 ("s") ("d")).logs = [] :=
  ⟨rfl, rfl, rfl⟩

lemma sync_dir_actions (env : SyncDirEnv) (src_dir dest_dir : String) :
    (sync_dir env src_dir dest_dir).actions = ensureDestDirActions env dest_dir := by
  obtain ⟨ds, rf0, cd0, dl, sl, f⟩ := env
  cases dl with
  | error e => rfl
  | ok entries =>
    cases sl with
    | error e => rfl
    | ok srcs => rfl

/-- The same scan environment with the step-1 syscall outcomes (destination
stat, remove_file result, create_dir result) replaced. -/
def withStep1 (env : SyncDirEnv) (st : StatResult) (rf cd : Except String Unit) :
    SyncDirEnv :=
  { env with destStat := st, removeFileResult := rf, createDirResult := cd }

/-- C8 amended: the scanner first stats the destination without
following symlinks; if it exists and is not a directory it deletes it and
creates a new directory, if it does not exist it creates it, if it is
already a directory (or the stat fails with an error other than NotFound) it
touches nothing — but every stat, deletion, or creation error in this step
is silently ignored, never logged; and the scanner always continues by
attempting to list the destination: its logs, tasks, ops and panic behavior
do not depend on the step-1 outcomes at all. -/
theorem c8_ensure_dest_amended (env : SyncDirEnv) (src_dir dest_dir : String) :
    ((sync_dir env src_dir dest_dir).actions =
      match env.destStat with
      | StatResult.found kind =>
        if kind = FileKind.dir then []
        else [FsAction.removeFile dest_dir, FsAction.createDir dest_dir]
      | StatResult.notFound => [FsAction.createDir dest_dir]
      | StatResult.otherErr _ => []) ∧
    (∀ st rf cd,
      (sync_dir (withStep1 env st rf cd) src_dir dest_dir).panicked =
          (sync_dir env src_dir dest_dir).panicked ∧
      (sync_dir (withStep1 env st rf cd) src_dir dest_dir).logs =
          (sync_dir env src_dir dest_dir).logs ∧
      (sync_dir (withStep1 env st rf cd) src_dir dest_dir).dirTasks =
          (sync_dir env src_dir dest_dir).dirTasks ∧
      (sync_dir (withStep1 env st rf cd) src_dir dest_dir).ops =
          (sync_dir env src_dir dest_dir).ops) := by
  obtain ⟨ds, rf0, cd0, dl, sl, f⟩ := env
  constructor
  · rw [sync_dir_actions]
    rfl
  · intro st rf cd
    cases dl with
    | error e => exact ⟨rfl, rfl, rfl, rfl⟩
    | ok entries =>
      cases sl with
      | error e2 => exact ⟨rfl, rfl, rfl, rfl⟩
      | ok srcs => exact ⟨rfl, rfl, rfl, rfl⟩

end MirrorSync
